import Mathlib
/-!
Verification of the arhivach thread-archiver core against its source
(`parser.py`, `downloader.py`, `config.py`, `main.py`).

The Python source is shallowly embedded: pure string/path manipulation is
translated to executable Lean functions on `String`/`List Char`; the
HTTP layer, the PIL image library and the filesystem are modelled as
explicit oracles (a response function per URL, a byte-transforming
conversion function, a list of file names present on disk); the mutable
`DownloadStats` accumulator is threaded explicitly through the batch fold,
which is the serialized semantics the source relies on (each task's
increments are atomic at its terminal transition).
-/

/-! ## Generic string helpers (Python `str` operations used by the source) -/

/-- Python `needle in hay` (substring containment) on character lists. -/
def subIn (needle : List Char) : List Char → Bool
  | [] => needle.isEmpty
  | c :: rest => needle.isPrefixOf (c :: rest) || subIn needle rest

/-- Python `needle in hay` for strings. -/
def containsSub (needle hay : String) : Bool := subIn needle.data hay.data

/-- Python `s.endswith(suffix)` on character lists. -/
def endsL (suffix l : List Char) : Bool := suffix.reverse.isPrefixOf l.reverse

/-- Python `s.split(sep)` for a one-character separator; never returns `[]`. -/
def splitOnChar (sep : Char) : List Char → List (List Char)
  | [] => [[]]
  | c :: rest =>
    if c = sep then [] :: splitOnChar sep rest
    else
      match splitOnChar sep rest with
      | [] => [[c]]
      | g :: gs => (c :: g) :: gs

/-- The remainder of `l` after the first occurrence of `needle`, if any. -/
def afterSub (needle : List Char) : List Char → Option (List Char)
  | [] => if needle.isEmpty then some [] else none
  | c :: rest =>
    if needle.isPrefixOf (c :: rest) then some ((c :: rest).drop needle.length)
    else afterSub needle rest

/-- Python `int(s)` on a string of decimal digits. -/
def natOfDigits (l : List Char) : Nat :=
  l.foldl (fun n c => n * 10 + (c.toNat - 48)) 0

/-- Python `s.lower()`. -/
def lowerStr (s : String) : String := (s.data.map Char.toLower).asString

/-- Index of the last occurrence of `c` in `l`, Python `s.rfind(c)` when found. -/
def lastIdxOf (c : Char) (l : List Char) : Option Nat :=
  ((l.enum.filter (fun p => p.2 == c)).map (fun p => p.1)).getLast?

/-- Python `s.strip(chars)`: drop characters of `set` from both ends. -/
def stripChars (set : List Char) (l : List Char) : List Char :=
  ((l.dropWhile (fun c => set.contains c)).reverse.dropWhile
    (fun c => set.contains c)).reverse

/-! ## Modelled standard-library calls -/

/-- Models `urllib.parse.urlparse(url).path`: drop `scheme://netloc` when a
`://` is present, and stop the path at a query (`?`) or fragment (`#`). -/
def urlPath (url : String) : String :=
  let cs :=
    match afterSub (String.data "://") url.data with
    | some rest => rest.dropWhile (fun c => c != '/')
    | none => url.data
  (cs.takeWhile (fun c => c != '?' && c != '#')).asString

/-- Models `os.path.splitext`: split at the last dot of the final path
component, unless every character of that component before the dot is
itself a dot (posixpath rule). -/
def splitext (p : String) : String × String :=
  let cs := p.data
  match lastIdxOf '.' cs with
  | none => (p, "")
  | some di =>
    let si :=
      match lastIdxOf '/' cs with
      | some s => s + 1
      | none => 0
    if si ≤ di ∧ ((cs.drop si).take (di - si)).any (fun c => c != '.') then
      ((cs.take di).asString, (cs.drop di).asString)
    else (p, "")

/-! ## config.py -/

/-- The configuration values the core reads (`config.py`); the interactive
settings editor only mutates these, so they are passed as a value. -/
structure Config where
  convert_images_to_jpg : Bool
  jpg_quality : Nat
deriving Repr, DecidableEq

/-- `config.py` defaults: CONVERT_IMAGES_TO_JPG = True, JPG_QUALITY = 85. -/
def defaultConfig : Config := ⟨true, 85⟩

/-- `config.MEDIA_EXTENSIONS['images']`. -/
def MEDIA_EXTENSIONS_IMAGES : List String := [".jpg", ".jpeg", ".png", ".gif", ".webp", ".bmp"]

/-- `config.MEDIA_EXTENSIONS['videos']`. -/
def MEDIA_EXTENSIONS_VIDEOS : List String := [".mp4", ".webm", ".mov", ".avi"]

/-- `config.MEDIA_EXTENSIONS['other']`. -/
def MEDIA_EXTENSIONS_OTHER : List String := [".pdf", ".zip", ".rar", ".7z"]

/-- `CONVERTIBLE_EXTENSIONS` (identical in parser.py and downloader.py). -/
def CONVERTIBLE_EXTENSIONS : List String := [".png", ".webp", ".bmp"]

/-! ## parser.py data model -/

/-- `parser.MediaFile`. -/
structure MediaFile where
  url : String
  filename : String
  file_type : String
deriving Repr, DecidableEq

/-- `parser.ThreadInfo` (posts_count omitted: never set by the source). -/
structure ThreadInfo where
  url : String
  title : String
  date : String
  thread_id : String
deriving Repr, DecidableEq

/-! ## downloader.py: names, conversion predicates, existence check -/

/-- `downloader.get_jpg_filename`. -/
def get_jpg_filename (filename : String) : String :=
  let be := splitext filename
  if CONVERTIBLE_EXTENSIONS.contains (lowerStr be.2) then be.1 ++ ".jpg" else filename

/-- `downloader.should_convert`. -/
def should_convert (cfg : Config) (filename : String) : Bool :=
  cfg.convert_images_to_jpg
    && CONVERTIBLE_EXTENSIONS.contains (lowerStr (splitext filename).2)

/-- `downloader.file_exists`; `disk` models the set of file names present in
`output_dir` (`os.path.exists(os.path.join(output_dir, name))`). -/
def file_exists (cfg : Config) (disk : List String) (filename : String) : Bool :=
  if disk.contains filename then true
  else if should_convert cfg filename && disk.contains (get_jpg_filename filename) then true
  else CONVERTIBLE_EXTENSIONS.contains (lowerStr (splitext filename).2)
    && disk.contains ((splitext filename).1 ++ ".jpg")

/-! ## downloader.py: the retrying downloader -/

/-- One attempt's outcome at the HTTP layer: a status/body response, or one
of the exception classes `_download_with_retry` catches. -/
inductive HttpAttempt where
  | resp (status : Nat) (body : List Nat)
  | timeout
  | clientError (msg : String)
  | otherError (msg : String)
deriving Repr, DecidableEq

/-- `response.status == code` when the attempt produced a response. -/
def is_status (a : HttpAttempt) (code : Nat) : Bool :=
  match a with
  | .resp s _ => s == code
  | _ => false

/-- `await response.read()` of a response attempt. -/
def resp_body (a : HttpAttempt) : List Nat :=
  match a with
  | .resp _ b => b
  | _ => []

/-- An attempt the loop retries: neither a 200 success nor a definitive 404. -/
def is_transient (a : HttpAttempt) : Bool :=
  !(is_status a 200) && !(is_status a 404)

/-- What one `_download_with_retry` call did: its return value, how many
HTTP attempts it made, the backoff sleeps it performed in order, and how
much it added to the shared `stats.retried` counter. -/
structure RetryResult where
  result : Option (List Nat)
  attempts : Nat
  sleeps : List Nat
  retried : Nat
deriving Repr, DecidableEq

/-- The body of `_download_with_retry`'s `for attempt in range(max_retries)`
loop, over the explicit list of attempt indices; `responses i` is what the
network does on attempt `i`. -/
def retryGo (responses : Nat → HttpAttempt) (max_retries : Nat) : List Nat → RetryResult
  | [] => ⟨none, 0, [], 0⟩
  | attempt :: rest =>
    if is_status (responses attempt) 200 then
      ⟨some (resp_body (responses attempt)), 1, [], 0⟩
    else if is_status (responses attempt) 404 then
      ⟨none, 1, [], 0⟩
    else if attempt < max_retries - 1 then
      let r := retryGo responses max_retries rest
      ⟨r.result, r.attempts + 1, 1 * (attempt + 1) :: r.sleeps, r.retried + 1⟩
    else ⟨none, 1, [], 0⟩

/-- `MediaDownloader._download_with_retry`. -/
def download_with_retry (responses : Nat → HttpAttempt) (max_retries : Nat) : RetryResult :=
  retryGo responses max_retries (List.range max_retries)

/-! ## downloader.py: per-file download and the batch -/

/-- `downloader.DownloadStats`. -/
structure DownloadStats where
  total : Nat := 0
  completed : Nat := 0
  failed : Nat := 0
  skipped : Nat := 0
  converted : Nat := 0
  retried : Nat := 0
  total_bytes : Nat := 0
deriving Repr, DecidableEq

/-- The external world one `_download_file` call sees: the network's
behaviour per attempt for this file's URL, and whether the disk write
(`aiofiles.open` / `f.write`) succeeds or raises. -/
structure FileEnv where
  responses : Nat → HttpAttempt
  write_ok : Bool

/-- One `_download_file` call's effect: its boolean return, the stats after
its increments, the disk contents after any write, and how many HTTP
attempts it caused. -/
structure FileStep where
  ok : Bool
  stats : DownloadStats
  disk : List String
  net_attempts : Nat
deriving Repr, DecidableEq

/-- `MediaDownloader._download_file`; `conv` models `convert_image_to_jpg`
applied at `config.JPG_QUALITY`. -/
def download_file (cfg : Config) (conv : List Nat → Nat → List Nat) (max_retries : Nat)
    (env : FileEnv) (media : MediaFile) (disk : List String) (stats : DownloadStats) :
    FileStep :=
  if file_exists cfg disk media.filename then
    ⟨true, { stats with skipped := stats.skipped + 1 }, disk, 0⟩
  else
    let final_filename :=
      if should_convert cfg media.filename then get_jpg_filename media.filename
      else media.filename
    let r := download_with_retry env.responses max_retries
    let stats := { stats with retried := stats.retried + r.retried }
    match r.result with
    | none => ⟨false, { stats with failed := stats.failed + 1 }, disk, r.attempts⟩
    | some content =>
      let cs :=
        if should_convert cfg media.filename then
          (conv content cfg.jpg_quality, { stats with converted := stats.converted + 1 })
        else (content, stats)
      if env.write_ok then
        ⟨true,
          { cs.2 with
            completed := cs.2.completed + 1
            total_bytes := cs.2.total_bytes + cs.1.length },
          final_filename :: disk, r.attempts⟩
      else ⟨false, { cs.2 with failed := cs.2.failed + 1 }, disk, r.attempts⟩

/-- `MediaDownloader.download_media_files`: reset stats with
`total = len(media_files)`, then run every file to a terminal outcome
(the serialized order of the tasks' atomic stat updates). -/
def download_media_files (cfg : Config) (conv : List Nat → Nat → List Nat)
    (max_retries : Nat) (batch : List (MediaFile × FileEnv)) (disk : List String) :
    DownloadStats :=
  let init : DownloadStats := { total := batch.length }
  (batch.foldl
    (fun (acc : DownloadStats × List String) mf =>
      let step := download_file cfg conv max_retries mf.2 mf.1 acc.2 acc.1
      (step.stats, step.disk))
    (init, disk)).1

/-! ## downloader.py: the image transcoder (`convert_image_to_jpg`)

PIL is external; its calls are modelled as oracle operations over an
abstract image type, each returning `none` when the call raises. The
`paste` operation folds in the mask choice (`img.split()[-1]` when the
pasted image's mode is RGBA, else no mask) and returns the background. -/

/-- The PIL operations `convert_image_to_jpg` performs. -/
structure PILOps (Img : Type) where
  open_img : List Nat → Option Img
  mode : Img → String
  new_rgb_white : Img → Option Img
  convert_rgba : Img → Option Img
  convert_rgb : Img → Option Img
  paste_onto : Img → Img → Option Img
  save_jpeg : Img → Nat → Option (List Nat)

/-- The `try` body of `convert_image_to_jpg`: decode, flatten alpha/palette
modes onto a white background, re-encode as JPEG; `none` marks the first
raising call. -/
def convert_pipeline {Img : Type} (pil : PILOps Img) (content : List Nat)
    (quality : Nat) : Option (List Nat) :=
  match pil.open_img content with
  | none => none
  | some img =>
    let stage :=
      if pil.mode img = "RGBA" ∨ pil.mode img = "LA" ∨ pil.mode img = "P" then
        match pil.new_rgb_white img with
        | none => none
        | some background =>
          match (if pil.mode img = "P" then pil.convert_rgba img else some img) with
          | none => none
          | some img2 => pil.paste_onto background img2
      else if pil.mode img ≠ "RGB" then pil.convert_rgb img
      else some img
    match stage with
    | none => none
    | some out => pil.save_jpeg out quality

/-- `downloader.convert_image_to_jpg`: the pipeline's output, or the input
bytes unchanged when any step raised. -/
def convert_image_to_jpg {Img : Type} (pil : PILOps Img) (content : List Nat)
    (quality : Nat) : List Nat :=
  match convert_pipeline pil content quality with
  | some out => out
  | none => content

/-! ## parser.py: filenames, URL normalization, file types -/

/-- `ArhivachParser._extract_filename`; `md5` models
`hashlib.md5(url.encode()).hexdigest()`. -/
def extract_filename (md5 : String → String) (url : String) : String :=
  let path := urlPath url
  let filename := ((splitOnChar '/' path.data).getLastD []).asString
  let filename := ((splitOnChar '?' filename.data).headD []).asString
  if filename.length < 3 then ((md5 url).data.take 16).asString
  else filename

/-- `ArhivachParser._normalize_url`. `urljoin(self.domain, url)` is modelled
for a base of the form `scheme://host` with empty path (the configured
`ARHIVACH_DOMAIN`): an absolute-path url is appended to the domain, a bare
relative url is appended after a `/`. -/
def normalize_url (domain url : String) : String :=
  if (String.data "//").isPrefixOf url.data then "https:" ++ url
  else if (String.data "/").isPrefixOf url.data then domain ++ url
  else if !((String.data "http").isPrefixOf url.data) then domain ++ "/" ++ url
  else url

/-- `ArhivachParser._get_file_type`. -/
def get_file_type (filename : String) : Option String :=
  let fl := lowerStr filename
  if MEDIA_EXTENSIONS_IMAGES.any (fun e => endsL e.data fl.data) then some "image"
  else if MEDIA_EXTENSIONS_VIDEOS.any (fun e => endsL e.data fl.data) then some "video"
  else if MEDIA_EXTENSIONS_OTHER.any (fun e => endsL e.data fl.data) then some "other"
  else none

/-- `parser.get_html_filename`: the name used in rewritten links — the
`.jpg`-converted name when conversion is enabled and the extension is
convertible. -/
def get_html_filename (cfg : Config) (filename : String) : String :=
  if !cfg.convert_images_to_jpg then filename
  else
    let be := splitext filename
    if CONVERTIBLE_EXTENSIONS.contains (lowerStr be.2) then be.1 ++ ".jpg" else filename

/-! ## parser.py: `parse_thread`'s media collection walk -/

/-- The mutable collection state of `parse_thread`: `media_files` in append
order, and the `original_filenames` set (membership is what the source
queries, so a duplicate-free list represents it). -/
structure ParseState where
  media_files : List MediaFile
  original_filenames : List String
deriving Repr, DecidableEq

/-- An `<img>` element's two source attributes; `""` models an absent
attribute (the source tests truthiness). -/
structure ImgTag where
  src : String
  dataSrc : String
deriving Repr, DecidableEq

/-- Rewrite every present source attribute of an image to `newSrc`
(`if img.get('src'): img['src'] = ...`, same for `data-src`). -/
def rewrite_img (img : ImgTag) (newSrc : String) : ImgTag :=
  { src := if img.src != "" then newSrc else img.src,
    dataSrc := if img.dataSrc != "" then newSrc else img.dataSrc }

/-- One iteration of `parse_thread`'s anchor loop (`for link in
soup.find_all('a', href=True)`): collect an original media asset from a
non-preview storage href and rewrite the href to its local path. Returns
the new state and the rewritten href. -/
def collect_anchor (cfg : Config) (md5 : String → String) (domain : String)
    (st : ParseState) (href : String) : ParseState × String :=
  if containsSub "/storage/" href && !(containsSub "/storage/t/" href) then
    let full_url :=
      if (String.data "http").isPrefixOf href.data then href
      else normalize_url domain href
    let filename := extract_filename md5 full_url
    match get_file_type filename with
    | some t =>
      let st1 :=
        if st.media_files.any (fun m => m.url == full_url) then st
        else { st with media_files := st.media_files ++ [⟨full_url, filename, t⟩] }
      let st2 :=
        if st1.original_filenames.contains filename then st1
        else { st1 with original_filenames := st1.original_filenames ++ [filename] }
      let html_filename := if t == "image" then get_html_filename cfg filename else filename
      (st2, "media/" ++ html_filename)
    | none => (st, href)
  else (st, href)

/-- The whole anchor pass of `parse_thread`, from the empty collection. -/
def collect_anchors (cfg : Config) (md5 : String → String) (domain : String)
    (hrefs : List String) : ParseState :=
  hrefs.foldl (fun st h => (collect_anchor cfg md5 domain st h).1) ⟨[], []⟩

/-- Python `s.rsplit('.', 1)[0]`: the name up to the last dot. -/
def rsplitStem (s : String) : String :=
  match lastIdxOf '.' s.data with
  | none => s
  | some i => (s.data.take i).asString

/-- Insert into an association list with `dict`-assignment semantics: a
later binding for the same key overwrites the earlier one. -/
def insertAssoc (acc : List (String × String)) (k v : String) : List (String × String) :=
  if acc.any (fun p => p.1 == k) then
    acc.map (fun p => if p.1 == k then (k, v) else p)
  else acc ++ [(k, v)]

/-- `video_hash_to_filename`: filename stem (content hash) to filename, for
every collected video. -/
def video_hash_map (media : List MediaFile) : List (String × String) :=
  media.foldl
    (fun acc m =>
      if m.file_type == "video" then insertAssoc acc (rsplitStem m.filename) m.filename
      else acc)
    []

/-- The chrome/UI exclusion of the image walk
(`any(x in src for x in ['favicon', 'logo', 'icon', 'avatar', 'button'])`). -/
def is_chrome_src (src : String) : Bool :=
  ["favicon", "logo", "icon", "avatar", "button"].any (fun x => containsSub x src)

/-- One iteration of `parse_thread`'s `for img in soup.find_all('img')`
walk: video-thumbnail previews register a synthetic `<hash>_thumb.jpg`
asset; other previews matching a collected original are repointed without
a new asset; non-preview storage images are registered and repointed. -/
def process_img (cfg : Config) (md5 : String → String) (domain : String)
    (vmap : List (String × String)) (st : ParseState) (img : ImgTag) :
    ParseState × ImgTag :=
  let src := if img.src != "" then img.src else img.dataSrc
  if src != "" && containsSub "/storage/" src then
    if is_chrome_src src then (st, img)
    else
      let filename := extract_filename md5 src
      if containsSub "/storage/t/" src then
        if endsL (String.data ".thumb") filename.data
            && ((vmap.lookup (filename.replace ".thumb" "")).isSome) then
          let hash_name := filename.replace ".thumb" ""
          let full_url := normalize_url domain src
          let thumb_filename := hash_name ++ "_thumb.jpg"
          let st1 :=
            if st.media_files.any (fun m => m.filename == thumb_filename) then st
            else { st with media_files := st.media_files ++ [⟨full_url, thumb_filename, "image"⟩] }
          (st1, rewrite_img img ("media/" ++ thumb_filename))
        else if st.original_filenames.contains filename then
          (st, rewrite_img img ("media/" ++ get_html_filename cfg filename))
        else (st, img)
      else
        let full_url := normalize_url domain src
        let st1 :=
          match get_file_type filename with
          | some t =>
            if st.media_files.any (fun m => m.url == full_url) then st
            else
              { st with
                media_files := st.media_files ++ [⟨full_url, filename, t⟩]
                original_filenames := st.original_filenames ++ [filename] }
          | none => st
        (st1, rewrite_img img ("media/" ++ get_html_filename cfg filename))
  else (st, img)

/-! ## parser.py: tag listing walker -/

/-- The URL `get_threads_from_tag_page` requests for a given offset:
the bare tag query at offset 0, the `/index/<offset>/` path otherwise. -/
def tag_page_url (domain : String) (tag_id : Nat) (offset : Nat) : String :=
  if offset = 0 then domain ++ "/?tags=" ++ toString tag_id
  else domain ++ "/index/" ++ toString offset ++ "/?tags=" ++ toString tag_id

/-- First match of the regex `/index/(\d+)/\?` at the head of `cs`. -/
def matchIndexOffsetAt (cs : List Char) : Option Nat :=
  if (String.data "/index/").isPrefixOf cs then
    let rest := cs.drop 7
    let digits := rest.takeWhile Char.isDigit
    if digits ≠ [] ∧ (String.data "/?").isPrefixOf (rest.drop digits.length) then
      some (natOfDigits digits)
    else none
  else none

/-- `re.search(r'/index/(\d+)/\?', href)`: the offset at the first matching
position. -/
def findIndexOffset : List Char → Option Nat
  | [] => none
  | c :: rest =>
    match matchIndexOffsetAt (c :: rest) with
    | some n => some n
    | none => findIndexOffset rest

/-- Python `s.isdigit()` for ASCII decimal labels. -/
def isDigitStr (s : String) : Bool := s.data ≠ [] && s.data.all Char.isDigit

/-- The pagination fold of `get_threads_from_tag_page` over the page's
anchors, each given as (href, stripped link text): start at 1; an anchor
whose href mentions `tags=<tag_id>` contributes `offset // 25 + 1` for an
`/index/<offset>/?` match and its literal label when all digits. -/
def total_pages_fold (tag_id : Nat) (links : List (String × String)) : Nat :=
  links.foldl
    (fun total link =>
      if containsSub ("tags=" ++ toString tag_id) link.1 then
        let total1 :=
          match findIndexOffset link.1.data with
          | some page_offset => max total (page_offset / 25 + 1)
          | none => total
        if isDigitStr link.2 then max total1 (natOfDigits link.2.data) else total1
      else total)
    1

/-- The page numbers one anchor contributes to the pagination scan. -/
def link_page_contributions (tag_id : Nat) (link : String × String) : List Nat :=
  if containsSub ("tags=" ++ toString tag_id) link.1 then
    (match findIndexOffset link.1.data with
      | some page_offset => [page_offset / 25 + 1]
      | none => [])
      ++ (if isDigitStr link.2 then [natOfDigits link.2.data] else [])
  else []

/-- Following the spec's words for the total page count: "the maximum page
number observed over all [pagination] anchors …, and is 1 when no such
pagination anchor is found". Compared against `total_pages_fold`. -/
def spec_total_pages (tag_id : Nat) (links : List (String × String)) : Nat :=
  match links.flatMap (link_page_contributions tag_id) with
  | [] => 1
  | x :: xs => xs.foldl max x

/-- The `total_pages` actually walked by `get_all_threads_from_tag`:
`if max_pages: total_pages = min(total_pages, max_pages)` (a `None` or `0`
cap is falsy and leaves the estimate unchanged). -/
def effective_total (first_total : Nat) (max_pages : Option Nat) : Nat :=
  match max_pages with
  | some m => if m ≠ 0 then min first_total m else first_total
  | none => first_total

/-- The accumulation loop of `get_all_threads_from_tag`
(`for page in range(2, total_pages + 1): … all_threads.extend(threads)`);
`page_at` maps an offset to the threads that page parses to. -/
def walk_pages (page_at : Nat → List ThreadInfo) (acc : List ThreadInfo) :
    List Nat → List ThreadInfo
  | [] => acc
  | p :: rest => walk_pages page_at (acc ++ page_at ((p - 1) * 25)) rest

/-- `ArhivachParser.get_all_threads_from_tag`; `page` maps an offset to what
`get_threads_from_tag_page` returns for it (threads, total-page estimate). -/
def get_all_threads_from_tag (page : Nat → List ThreadInfo × Nat)
    (max_pages : Option Nat) : List ThreadInfo :=
  let first := page 0
  let total_pages := effective_total first.2 max_pages
  walk_pages (fun off => (page off).1) first.1 (List.range' 2 (total_pages - 1))

/-! ## parser.py / main.py: folder naming -/

/-- Match of `(\d{2})/(\d{2})/(\d{2})` at the head of `cs`. -/
def matchDDMMYYAt (cs : List Char) : Option (List Char × List Char × List Char) :=
  match cs with
  | d1 :: d2 :: s1 :: m1 :: m2 :: s2 :: y1 :: y2 :: _ =>
    if d1.isDigit && d2.isDigit && s1 == '/' && m1.isDigit && m2.isDigit
        && s2 == '/' && y1.isDigit && y2.isDigit then
      some ([d1, d2], [m1, m2], [y1, y2])
    else none
  | _ => none

/-- `re.search(r'(\d{2})/(\d{2})/(\d{2})', date_str)`: the groups at the
first matching position. -/
def findDDMMYY : List Char → Option (List Char × List Char × List Char)
  | [] => none
  | c :: rest =>
    match matchDDMMYYAt (c :: rest) with
    | some r => some r
    | none => findDDMMYY rest

/-- `ArhivachParser._parse_post_time_to_folder` (also `get_folder_name`). -/
def parse_post_time_to_folder (date_str thread_id : String) : String :=
  match findDDMMYY date_str.data with
  | some (d, m, y) =>
    d.asString ++ "." ++ m.asString ++ "." ++ y.asString ++ "_" ++ thread_id
  | none => "thread_" ++ thread_id

/-- The characters `main.sanitize_folder_name` replaces
(`re.sub(r'[<>:"/\\|?*]', '_', name)`). -/
def ILLEGAL_CHARS : List Char := ['<', '>', ':', '\"', '/', '\\', '|', '?', '*']

/-- `sanitize_folder_name`'s intermediate after replacement and
`name.strip(' .')`. -/
def sanitize_stripped (name : String) : List Char :=
  stripChars [' ', '.']
    (name.data.map (fun c => if ILLEGAL_CHARS.contains c then '_' else c))

/-- `main.sanitize_folder_name`. -/
def sanitize_folder_name (name : String) : String :=
  let cs := sanitize_stripped name
  if cs.isEmpty then "thread" else (cs.take 200).asString

/-! ## Helper lemmas -/

/-- `file_exists` as the disjunction of its three checks. -/
theorem file_exists_eq (cfg : Config) (disk : List String) (f : String) :
    file_exists cfg disk f =
      (disk.contains f
        || should_convert cfg f && disk.contains (get_jpg_filename f)
        || CONVERTIBLE_EXTENSIONS.contains (lowerStr (splitext f).2)
            && disk.contains ((splitext f).1 ++ ".jpg")) := by
  unfold file_exists
  cases h1 : disk.contains f <;>
    cases h2 : should_convert cfg f && disk.contains (get_jpg_filename f) <;>
      simp [h1, h2]

/-- A file present under the JPG-converted name passes `file_exists`. -/
theorem file_exists_of_jpg (cfg : Config) (disk : List String) (f : String)
    (h : disk.contains (get_jpg_filename f) = true) :
    file_exists cfg disk f = true := by
  rw [file_exists_eq]
  by_cases hc : lowerStr (splitext f).2 ∈ CONVERTIBLE_EXTENSIONS
  · have he : get_jpg_filename f = (splitext f).1 ++ ".jpg" := by
      simp [get_jpg_filename, hc]
    rw [he] at h
    simp only [Bool.or_eq_true, Bool.and_eq_true]
    exact Or.inr ⟨by simpa using hc, h⟩
  · have he : get_jpg_filename f = f := by
      simp [get_jpg_filename, hc]
    rw [he] at h
    simp only [Bool.or_eq_true, Bool.and_eq_true]
    exact Or.inl (Or.inl (by simpa using h))

/-- A `file_exists` hit makes `_download_file` take the skip branch. -/
theorem download_file_skip (cfg : Config) (conv : List Nat → Nat → List Nat)
    (max_retries : Nat) (env : FileEnv) (media : MediaFile) (disk : List String)
    (stats : DownloadStats) (h : file_exists cfg disk media.filename = true) :
    download_file cfg conv max_retries env media disk stats =
      ⟨true, { stats with skipped := stats.skipped + 1 }, disk, 0⟩ := by
  unfold download_file
  simp [h]

/-! ## C1 -/

/-- C1: For every media asset in a `downloadBatch` call, if a file matching
either the asset's original filename or its JPG-converted filename already
exists in the output directory, the engine counts the asset as skipped and
performs no network request for it (zero HTTP attempts, disk untouched). -/
theorem c1_present_asset_skipped_without_network (cfg : Config)
    (conv : List Nat → Nat → List Nat) (max_retries : Nat) (env : FileEnv)
    (media : MediaFile) (disk : List String) (stats : DownloadStats)
    (h : disk.contains media.filename = true ∨
      disk.contains (get_jpg_filename media.filename) = true) :
    download_file cfg conv max_retries env media disk stats =
      ⟨true, { stats with skipped := stats.skipped + 1 }, disk, 0⟩ := by
  apply download_file_skip
  rcases h with h | h
  · rw [file_exists_eq]
    simp only [Bool.or_eq_true]
    exact Or.inl (Or.inl (by simpa using h))
  · exact file_exists_of_jpg cfg disk media.filename h

/-- Witness for C1 at a concrete asset already on disk. -/
theorem c1_present_asset_skipped_without_network_witness :
    download_file ⟨true, 85⟩ (fun c _ => c) 5 ⟨fun _ => HttpAttempt.timeout, true⟩
      ⟨"u", "x.png", "image"⟩ ["x.png"] {} =
      ⟨true, { skipped := 1 }, ["x.png"], 0⟩ :=
  c1_present_asset_skipped_without_network ⟨true, 85⟩ (fun c _ => c) 5
    ⟨fun _ => HttpAttempt.timeout, true⟩ ⟨"u", "x.png", "image"⟩ ["x.png"] {}
    (Or.inl (by decide))

/-! ## C10 -/

/-- C10: For every asset whose filename has a convertible extension
(.png/.webp/.bmp, case-insensitive), a file named `<basename>.jpg` in the
output directory makes the existence check treat the asset as present even
when image conversion is disabled, so the asset is counted skipped and its
original is never downloaded (zero HTTP attempts, nothing written). -/
theorem c10_jpg_on_disk_skips_even_without_conversion (cfg : Config)
    (conv : List Nat → Nat → List Nat) (max_retries : Nat) (env : FileEnv)
    (media : MediaFile) (disk : List String) (stats : DownloadStats)
    (_hoff : cfg.convert_images_to_jpg = false)
    (hext : CONVERTIBLE_EXTENSIONS.contains (lowerStr (splitext media.filename).2) = true)
    (hdisk : disk.contains ((splitext media.filename).1 ++ ".jpg") = true) :
    file_exists cfg disk media.filename = true ∧
      download_file cfg conv max_retries env media disk stats =
        ⟨true, { stats with skipped := stats.skipped + 1 }, disk, 0⟩ := by
  have hfe : file_exists cfg disk media.filename = true := by
    rw [file_exists_eq]
    simp only [Bool.or_eq_true, Bool.and_eq_true]
    exact Or.inr ⟨hext, hdisk⟩
  exact ⟨hfe, download_file_skip _ _ _ _ _ _ _ hfe⟩

/-- Witness for C10: conversion disabled, only `a.jpg` on disk, asset `a.png`. -/
theorem c10_jpg_on_disk_skips_even_without_conversion_witness :
    file_exists ⟨false, 85⟩ ["a.jpg"] "a.png" = true ∧
      download_file ⟨false, 85⟩ (fun c _ => c) 5 ⟨fun _ => HttpAttempt.timeout, true⟩
        ⟨"u", "a.png", "image"⟩ ["a.jpg"] {} =
        ⟨true, { skipped := 1 }, ["a.jpg"], 0⟩ :=
  c10_jpg_on_disk_skips_even_without_conversion ⟨false, 85⟩ (fun c _ => c) 5
    ⟨fun _ => HttpAttempt.timeout, true⟩ ⟨"u", "a.png", "image"⟩ ["a.jpg"] {}
    rfl (by decide) (by decide)

/-! ## C7 -/

/-- C7: The image transcoder never fails its caller: `convert_image_to_jpg`
always returns bytes, and whenever any internal PIL step raises (the
pipeline yields `none`) it returns the original input bytes unchanged. -/
theorem c7_transcoder_falls_back_to_input {Img : Type} (pil : PILOps Img)
    (content : List Nat) (quality : Nat)
    (h : convert_pipeline pil content quality = none) :
    convert_image_to_jpg pil content quality = content := by
  unfold convert_image_to_jpg
  rw [h]

/-- Witness for C7 with a decoder that always raises. -/
theorem c7_transcoder_falls_back_to_input_witness :
    @convert_image_to_jpg Unit
      ⟨fun _ => none, fun _ => "", fun _ => none, fun _ => none, fun _ => none,
        fun _ _ => none, fun _ _ => none⟩ [1, 2, 3] 85 = [1, 2, 3] :=
  c7_transcoder_falls_back_to_input
    ⟨fun _ => none, fun _ => "", fun _ => none, fun _ => none, fun _ => none,
      fun _ _ => none, fun _ _ => none⟩ [1, 2, 3] 85 rfl

/-! ## C3 -/

/-- Unfolding of the retry loop at a transient non-final attempt. -/
theorem retryGo_cons_retry (responses : Nat → HttpAttempt) (mr attempt : Nat)
    (rest : List Nat) (h200 : is_status (responses attempt) 200 = false)
    (h404 : is_status (responses attempt) 404 = false)
    (hmore : attempt < mr - 1) :
    retryGo responses mr (attempt :: rest) =
      ⟨(retryGo responses mr rest).result, (retryGo responses mr rest).attempts + 1,
        1 * (attempt + 1) :: (retryGo responses mr rest).sleeps,
        (retryGo responses mr rest).retried + 1⟩ := by
  simp only [retryGo]
  rw [h200, h404]
  simp only [Bool.false_eq_true, if_false]
  rw [if_pos hmore]

/-- Unfolding of the retry loop at a transient final attempt. -/
theorem retryGo_cons_last (responses : Nat → HttpAttempt) (mr attempt : Nat)
    (rest : List Nat) (h200 : is_status (responses attempt) 200 = false)
    (h404 : is_status (responses attempt) 404 = false)
    (hlast : ¬ attempt < mr - 1) :
    retryGo responses mr (attempt :: rest) = ⟨none, 1, [], 0⟩ := by
  simp only [retryGo]
  rw [h200, h404]
  simp only [Bool.false_eq_true, if_false]
  rw [if_neg hlast]

/-- A transient attempt is neither a 200 nor a 404. -/
theorem is_transient_elim (a : HttpAttempt) (h : is_transient a = true) :
    is_status a 200 = false ∧ is_status a 404 = false := by
  revert h
  unfold is_transient
  cases is_status a 200 <;> cases is_status a 404 <;> simp

/-- The retry loop over attempt indices `range' a k` (with `a + k` equal to
the retry budget) when every attempt is transient: it runs all `k` attempts,
sleeps `a+1, a+2, …` between consecutive attempts, counts every retry, and
returns `none`. -/
theorem retryGo_all_transient (responses : Nat → HttpAttempt) (mr : Nat)
    (h : ∀ i, i < mr → is_transient (responses i) = true) :
    ∀ k a, a + k = mr →
      retryGo responses mr (List.range' a k) =
        ⟨none, k, List.range' (a + 1) (k - 1), k - 1⟩ := by
  intro k
  induction k with
  | zero => intro a _; simp [retryGo, List.range']
  | succ n ih =>
    intro a hak
    have ha : a < mr := by omega
    obtain ⟨h200, h404⟩ := is_transient_elim _ (h a ha)
    rw [List.range'_succ]
    cases n with
    | zero =>
      have hlast : ¬ a < mr - 1 := by omega
      rw [retryGo_cons_last responses mr a _ h200 h404 hlast]
      simp [List.range']
    | succ m =>
      have hmore : a < mr - 1 := by omega
      rw [retryGo_cons_retry responses mr a _ h200 h404 hmore, ih (a + 1) (by omega)]
      simp only [Nat.add_sub_cancel]
      rw [List.range'_succ]
      simp

/-- Strict increase of consecutive entries of `range' s n`. -/
theorem chain_lt_range' : ∀ (n s : Nat), List.Chain' (· < ·) (List.range' s n)
  | 0, _ => by simp [List.range']
  | 1, s => by simp [List.range']
  | n + 2, s => by
    rw [List.range'_succ, List.range'_succ]
    exact List.chain'_cons.mpr ⟨by omega,
      by rw [← List.range'_succ]; exact chain_lt_range' (n + 1) (s + 1)⟩

/-- C3: when every attempt fails transiently (non-404 bad status, timeout,
or transport error), `_download_with_retry` makes exactly `max_retries`
attempts and returns the failure value `none`, sleeping `1·1, 1·2, …`
seconds between consecutive attempts — a strictly increasing delay — and
increments the shared retried counter once per retry
(`max_retries - 1` times). -/
theorem c3_transient_error_exhausts_retries (responses : Nat → HttpAttempt)
    (max_retries : Nat)
    (h : ∀ i, i < max_retries → is_transient (responses i) = true) :
    download_with_retry responses max_retries =
      ⟨none, max_retries, List.range' 1 (max_retries - 1), max_retries - 1⟩ ∧
      List.Chain' (· < ·) (download_with_retry responses max_retries).sleeps ∧
      (download_with_retry responses max_retries).retried =
        (download_with_retry responses max_retries).sleeps.length := by
  have hmain : download_with_retry responses max_retries =
      ⟨none, max_retries, List.range' 1 (max_retries - 1), max_retries - 1⟩ := by
    unfold download_with_retry
    rw [List.range_eq_range']
    exact retryGo_all_transient responses max_retries h max_retries 0 (by omega)
  refine ⟨hmain, ?_, ?_⟩
  · rw [hmain]; exact chain_lt_range' _ _
  · rw [hmain]; simp

/-- Witness for C3: three timeouts → 3 attempts, sleeps 1 then 2, 2 retries. -/
theorem c3_transient_error_exhausts_retries_witness :
    download_with_retry (fun _ => HttpAttempt.timeout) 3 = ⟨none, 3, [1, 2], 2⟩ ∧
      List.Chain' (· < ·) (download_with_retry (fun _ => HttpAttempt.timeout) 3).sleeps ∧
      (download_with_retry (fun _ => HttpAttempt.timeout) 3).retried =
        (download_with_retry (fun _ => HttpAttempt.timeout) 3).sleeps.length :=
  c3_transient_error_exhausts_retries (fun _ => HttpAttempt.timeout) 3
    (fun _ _ => rfl)

/-! ## C4 (corrected: no distinct NotFound outcome exists in the code) -/

/-- C4 counterexample: a first-response 404 run does yield exactly one
attempt with no sleep and no retry increment, but its returned outcome is
the very same value (`none`) that a run of exhausted transient retries
returns — the code has no NotFound outcome distinct from generic failure
(`_download_with_retry` returns `None` in both cases; the caller counts
both as failed). -/
theorem c4_counterexample_404_equals_failure :
    download_with_retry (fun _ => HttpAttempt.resp 404 []) 5 = ⟨none, 1, [], 0⟩ ∧
      (download_with_retry (fun _ => HttpAttempt.resp 404 []) 5).result =
        (download_with_retry (fun _ => HttpAttempt.timeout) 5).result := by
  constructor
  · rfl
  · rfl

/-- C4 (amended): a first-response 404 short-circuits — exactly one attempt,
no backoff sleep, no retry-counter increment — returning `none`, the same
failure value exhausted retries return. -/
theorem c4_first_404_single_attempt (responses : Nat → HttpAttempt)
    (max_retries : Nat) (hmr : 0 < max_retries)
    (h404 : is_status (responses 0) 404 = true) :
    download_with_retry responses max_retries = ⟨none, 1, [], 0⟩ := by
  unfold download_with_retry
  obtain ⟨k, rfl⟩ : ∃ k, max_retries = k + 1 := ⟨max_retries - 1, by omega⟩
  rw [List.range_eq_range', List.range'_succ]
  have h200 : is_status (responses 0) 200 = false := by
    cases hr : responses 0 with
    | resp s b =>
      rw [hr] at h404
      have : s = 404 := by simpa [is_status] using h404
      simp [is_status, this]
    | timeout => simp [is_status]
    | clientError m => simp [is_status]
    | otherError m => simp [is_status]
  simp [retryGo, h200, h404]

/-- Witness for the amended C4 at a concrete 404 responder. -/
theorem c4_first_404_single_attempt_witness :
    download_with_retry (fun _ => HttpAttempt.resp 404 [7]) 4 = ⟨none, 1, [], 0⟩ :=
  c4_first_404_single_attempt (fun _ => HttpAttempt.resp 404 [7]) 4
    (by decide) rfl

/-! ## C6 -/

/-- Every `_download_file` call increments exactly one of
completed/failed/skipped and leaves `total` unchanged. -/
theorem download_file_one_terminal (cfg : Config) (conv : List Nat → Nat → List Nat)
    (max_retries : Nat) (env : FileEnv) (media : MediaFile) (disk : List String)
    (stats : DownloadStats) :
    ((download_file cfg conv max_retries env media disk stats).stats.completed
        + (download_file cfg conv max_retries env media disk stats).stats.failed
        + (download_file cfg conv max_retries env media disk stats).stats.skipped
      = stats.completed + stats.failed + stats.skipped + 1) ∧
      (download_file cfg conv max_retries env media disk stats).stats.total
        = stats.total := by
  unfold download_file
  by_cases hfe : file_exists cfg disk media.filename = true
  · simp [hfe]
    omega
  · simp only [hfe, if_false, Bool.false_eq_true]
    cases hres : (download_with_retry env.responses max_retries).result with
    | none =>
      simp [hres]
      omega
    | some content =>
      simp only [hres]
      by_cases hsc : should_convert cfg media.filename = true
      · cases hw : env.write_ok <;> simp [hsc, hw] <;> omega
      · simp only [hsc, Bool.false_eq_true, if_false]
        cases hw : env.write_ok <;> simp [hw] <;> omega

/-- The batch fold preserves the terminal-outcome sum, one increment per
asset. -/
theorem batch_fold_sum (cfg : Config) (conv : List Nat → Nat → List Nat)
    (max_retries : Nat) :
    ∀ (batch : List (MediaFile × FileEnv)) (stats : DownloadStats) (disk : List String),
      ((batch.foldl
          (fun (acc : DownloadStats × List String) mf =>
            let step := download_file cfg conv max_retries mf.2 mf.1 acc.2 acc.1
            (step.stats, step.disk))
          (stats, disk)).1.completed
        + (batch.foldl
          (fun (acc : DownloadStats × List String) mf =>
            let step := download_file cfg conv max_retries mf.2 mf.1 acc.2 acc.1
            (step.stats, step.disk))
          (stats, disk)).1.failed
        + (batch.foldl
          (fun (acc : DownloadStats × List String) mf =>
            let step := download_file cfg conv max_retries mf.2 mf.1 acc.2 acc.1
            (step.stats, step.disk))
          (stats, disk)).1.skipped
        = stats.completed + stats.failed + stats.skipped + batch.length) ∧
      (batch.foldl
          (fun (acc : DownloadStats × List String) mf =>
            let step := download_file cfg conv max_retries mf.2 mf.1 acc.2 acc.1
            (step.stats, step.disk))
          (stats, disk)).1.total = stats.total := by
  intro batch
  induction batch with
  | nil => intro stats disk; simp
  | cons mf rest ih =>
    intro stats disk
    simp only [List.foldl_cons, List.length_cons]
    obtain ⟨hsum, htot⟩ := download_file_one_terminal cfg conv max_retries mf.2 mf.1 disk stats
    obtain ⟨ihsum, ihtot⟩ :=
      ih (download_file cfg conv max_retries mf.2 mf.1 disk stats).stats
        (download_file cfg conv max_retries mf.2 mf.1 disk stats).disk
    constructor
    · rw [ihsum, hsum]
      omega
    · rw [ihtot, htot]

/-- C6: `download_media_files` drives every input asset to exactly one
terminal outcome, so the returned statistics satisfy
completed + failed + skipped = total, with total the number of inputs. -/
theorem c6_stats_partition (cfg : Config) (conv : List Nat → Nat → List Nat)
    (max_retries : Nat) (batch : List (MediaFile × FileEnv)) (disk : List String) :
    (download_media_files cfg conv max_retries batch disk).completed
        + (download_media_files cfg conv max_retries batch disk).failed
        + (download_media_files cfg conv max_retries batch disk).skipped
      = (download_media_files cfg conv max_retries batch disk).total ∧
      (download_media_files cfg conv max_retries batch disk).total = batch.length := by
  obtain ⟨hsum, htot⟩ :=
    batch_fold_sum cfg conv max_retries batch { total := batch.length } disk
  unfold download_media_files
  constructor
  · rw [hsum, htot]
    simp
  · exact htot

/-! ## C5 -/

/-- The page-accumulation loop equals the in-order concatenation of the
visited pages' thread lists. -/
theorem walk_pages_eq (page_at : Nat → List ThreadInfo) :
    ∀ (l : List Nat) (acc : List ThreadInfo),
      walk_pages page_at acc l = acc ++ l.flatMap (fun p => page_at ((p - 1) * 25)) := by
  intro l
  induction l with
  | nil => intro acc; simp [walk_pages]
  | cons p rest ih =>
    intro acc
    simp [walk_pages, ih]

/-- C5: page N is addressed by offset (N-1)·25 — offset 0 is the bare tag
query and any positive offset the `/index/<offset>/` path, so offsets 0 and
25 give distinct URLs — and `get_all_threads_from_tag` is page 1's threads
followed by those of pages 2 … min(total, max_pages) fetched at offset
(page-1)·25, in ascending page order, concatenated in encounter order. -/
theorem c5_offset_pagination_and_walk :
    (∀ domain tag_id, tag_page_url domain tag_id 0 ≠ tag_page_url domain tag_id 25) ∧
      (∀ domain tag_id offset, offset ≠ 0 →
        tag_page_url domain tag_id offset =
          domain ++ "/index/" ++ toString offset ++ "/?tags=" ++ toString tag_id) ∧
      (∀ page max_pages,
        get_all_threads_from_tag page max_pages =
          (page 0).1 ++ (List.range' 2 (effective_total (page 0).2 max_pages - 1)).flatMap
            (fun p => (page ((p - 1) * 25)).1)) ∧
      (∀ first_total m, m ≠ 0 →
        effective_total first_total (some m) = min first_total m) := by
  refine ⟨?_, ?_, ?_, ?_⟩
  · intro domain tag_id h
    have hl := congrArg String.length h
    simp only [tag_page_url, reduceIte, if_neg (by omega : ¬ (25 : Nat) = 0),
      String.length_append] at hl
    rw [show ("/?tags=" : String).length = 7 from rfl,
      show ("/index/" : String).length = 7 from rfl,
      show (toString (25 : Nat)).length = 2 from rfl] at hl
    omega
  · intro domain tag_id offset h
    simp [tag_page_url, h]
  · intro page max_pages
    unfold get_all_threads_from_tag
    exact walk_pages_eq _ _ _
  · intro first_total m h
    simp [effective_total, h]

/-! ## C8 (corrected: the scan starts from 1, so it never drops below 1
even when an observed label is 0) -/

/-- C8 counterexample: a page whose only pagination anchor references the
tag with the all-digit label "0" makes the code return 1 (the fold starts
at 1), while "the maximum page number observed over all anchors" is 0. -/
theorem c8_counterexample_zero_label :
    total_pages_fold 7 [("/?tags=7", "0")] = 1 ∧
      spec_total_pages 7 [("/?tags=7", "0")] = 0 := by
  constructor
  · decide
  · decide

/-- One anchor's update to the running maximum equals folding `max` over
that anchor's contributions. -/
theorem total_pages_step_eq (tag_id : Nat) (link : String × String) (t : Nat) :
    (if containsSub ("tags=" ++ toString tag_id) link.1 then
        let total1 :=
          match findIndexOffset link.1.data with
          | some page_offset => max t (page_offset / 25 + 1)
          | none => t
        if isDigitStr link.2 then max total1 (natOfDigits link.2.data) else total1
      else t)
      = (link_page_contributions tag_id link).foldl max t := by
  unfold link_page_contributions
  by_cases hc : containsSub ("tags=" ++ toString tag_id) link.1 = true
  · simp only [hc, if_true]
    cases hoff : findIndexOffset link.1.data with
    | none =>
      cases hd : isDigitStr link.2 <;> simp [hd]
    | some off =>
      cases hd : isDigitStr link.2 <;> simp [hd]
  · simp [hc]

/-- The pagination fold from any seed equals folding `max` over all
contributions from that seed. -/
theorem total_pages_fold_from (tag_id : Nat) :
    ∀ (links : List (String × String)) (t : Nat),
      links.foldl
        (fun total link =>
          if containsSub ("tags=" ++ toString tag_id) link.1 then
            let total1 :=
              match findIndexOffset link.1.data with
              | some page_offset => max total (page_offset / 25 + 1)
              | none => total
            if isDigitStr link.2 then max total1 (natOfDigits link.2.data) else total1
          else total)
        t
        = (links.flatMap (link_page_contributions tag_id)).foldl max t := by
  intro links
  induction links with
  | nil => intro t; simp
  | cons link rest ih =>
    intro t
    simp only [List.foldl_cons, List.flatMap_cons, List.foldl_append]
    rw [← total_pages_step_eq tag_id link t, ih]

/-- C8 (amended): the total page count is the maximum of 1 and every page
number observed over the tag-referencing anchors (an `/index/<offset>/?`
parameter as offset/25 + 1, or a literal all-digit label); with no
pagination anchor it is 1, and an observed label below 1 cannot pull it
below 1. -/
theorem c8_total_pages_is_floored_max (tag_id : Nat) (links : List (String × String)) :
    total_pages_fold tag_id links =
        (links.flatMap (link_page_contributions tag_id)).foldl max 1 ∧
      (links.flatMap (link_page_contributions tag_id) = [] →
        total_pages_fold tag_id links = 1) := by
  have h := total_pages_fold_from tag_id links 1
  constructor
  · exact h
  · intro he
    rw [total_pages_fold, h, he]
    rfl

/-! ## C9 -/

/-- `asString` inverts to the underlying character list. -/
theorem data_asString (l : List Char) : l.asString.data = l :=
  List.toList_asString l

/-- Membership survives `stripChars` backwards. -/
theorem mem_of_mem_stripChars (set l : List Char) (c : Char)
    (h : c ∈ stripChars set l) : c ∈ l := by
  unfold stripChars at h
  rw [List.mem_reverse] at h
  have h2 := (List.dropWhile_sublist _).subset h
  rw [List.mem_reverse] at h2
  exact (List.dropWhile_sublist _).subset h2

/-- The head surviving a `dropWhile` refutes the predicate. -/
theorem head_dropWhile_false (p : Char → Bool) :
    ∀ (l : List Char) (x : Char), (l.dropWhile p).head? = some x → p x = false := by
  intro l
  induction l with
  | nil => intro x h; simp [List.dropWhile] at h
  | cons a rest ih =>
    intro x h
    by_cases hp : p a = true
    · rw [List.dropWhile_cons_of_pos hp] at h
      exact ih x h
    · rw [List.dropWhile_cons_of_neg hp] at h
      simp at h
      rw [← h]
      simpa using hp

/-- The last character left by `stripChars` is outside the stripped set. -/
theorem getLast_stripChars_false (set l : List Char) (c : Char)
    (h : (stripChars set l).getLast? = some c) : set.contains c = false := by
  unfold stripChars at h
  rw [List.getLast?_reverse] at h
  exact head_dropWhile_false _ _ _ h

/-- C9: a date string containing a DD/MM/YY pattern yields the folder name
`DD.MM.YY_<id>` (in particular `"20/01/25 Пнд 16:33:14"` with id
`"1122323"` yields `"20.01.25_1122323"`); a date string with no such
pattern yields `thread_<id>`; and sanitization replaces the
filesystem-illegal characters with `_`, trims trailing dots/spaces (when
the 200-character truncation does not cut the name), and truncates to at
most 200 characters. -/
theorem c9_folder_naming_contract :
    (parse_post_time_to_folder "20/01/25 Пнд 16:33:14" "1122323" = "20.01.25_1122323") ∧
      (∀ date_str thread_id d m y, findDDMMYY date_str.data = some (d, m, y) →
        parse_post_time_to_folder date_str thread_id =
          d.asString ++ "." ++ m.asString ++ "." ++ y.asString ++ "_" ++ thread_id) ∧
      (∀ date_str thread_id, findDDMMYY date_str.data = none →
        parse_post_time_to_folder date_str thread_id = "thread_" ++ thread_id) ∧
      (∀ name, (sanitize_folder_name name).length ≤ 200) ∧
      (∀ name c, c ∈ (sanitize_folder_name name).data →
        ILLEGAL_CHARS.contains c = false) ∧
      (∀ name c, (sanitize_stripped name).length ≤ 200 →
        (sanitize_folder_name name).data.getLast? = some c → c ≠ ' ' ∧ c ≠ '.') := by
  refine ⟨by decide, ?_, ?_, ?_, ?_, ?_⟩
  · intro date_str thread_id d m y h
    unfold parse_post_time_to_folder
    rw [h]
  · intro date_str thread_id h
    unfold parse_post_time_to_folder
    rw [h]
  · intro name
    unfold sanitize_folder_name
    by_cases he : (sanitize_stripped name).isEmpty = true
    · simp only [he, if_true]
      decide
    · simp only [he, Bool.false_eq_true, if_false]
      rw [List.length_asString, List.length_take]
      omega
  · intro name c hc
    unfold sanitize_folder_name at hc
    by_cases he : (sanitize_stripped name).isEmpty = true
    · simp only [he, if_true] at hc
      fin_cases hc <;> decide
    · simp only [he, Bool.false_eq_true, if_false] at hc
      rw [data_asString] at hc
      have h1 : c ∈ sanitize_stripped name := (List.take_sublist _ _).subset hc
      have h2 := mem_of_mem_stripChars _ _ _ h1
      obtain ⟨a, _, rfl⟩ := List.mem_map.mp h2
      by_cases hi : ILLEGAL_CHARS.contains a = true
      · rw [if_pos hi]
        decide
      · rw [if_neg hi]
        simpa using hi
  · intro name c hlen hc
    unfold sanitize_folder_name at hc
    by_cases he : (sanitize_stripped name).isEmpty = true
    · simp only [he, if_true] at hc
      have : c = 'd' := by
        have : ("thread" : String).data.getLast? = some 'd' := by decide
        rw [this] at hc
        exact (Option.some_inj.mp hc).symm
      rw [this]
      exact ⟨by decide, by decide⟩
    · simp only [he, Bool.false_eq_true, if_false] at hc
      rw [data_asString, List.take_of_length_le hlen] at hc
      have := getLast_stripChars_false _ _ _ hc
      constructor
      · intro hsp
        rw [hsp] at this
        simp at this
      · intro hdot
        rw [hdot] at this
        simp at this

/-! ## C2 -/

/-- C2: an image element whose source is a non-thumbnail preview path
(under `/storage/t/`, not a `.thumb` video preview, not chrome) whose
filename equals an original already collected from the page's anchors adds
no new media asset — the collection state is unchanged — and its present
source attributes are rewritten to the original's local
`media/<html filename>` path (the JPG-converted name when conversion is
enabled). -/
theorem c2_preview_of_collected_original_repointed (cfg : Config)
    (md5 : String → String) (domain : String) (hrefs : List String)
    (img : ImgTag) (src : String)
    (hsrc : (if img.src != "" then img.src else img.dataSrc) = src)
    (hstorage : containsSub "/storage/" src = true)
    (hpreview : containsSub "/storage/t/" src = true)
    (hchrome : is_chrome_src src = false)
    (hthumb : endsL (String.data ".thumb") (extract_filename md5 src).data = false)
    (horig : (collect_anchors cfg md5 domain hrefs).original_filenames.contains
      (extract_filename md5 src) = true) :
    process_img cfg md5 domain
        (video_hash_map (collect_anchors cfg md5 domain hrefs).media_files)
        (collect_anchors cfg md5 domain hrefs) img =
      (collect_anchors cfg md5 domain hrefs,
        rewrite_img img ("media/" ++ get_html_filename cfg (extract_filename md5 src))) := by
  have hne : (src != "") = true := by
    by_cases h : src = ""
    · rw [h] at hstorage
      exact absurd hstorage (by decide)
    · simpa using h
  unfold process_img
  rw [hsrc]
  rw [if_pos (by rw [hne, hstorage]; rfl : (src != "" && containsSub "/storage/" src) = true)]
  rw [if_neg (by rw [hchrome]; simp : ¬ is_chrome_src src = true)]
  rw [if_pos hpreview]
  rw [if_neg (by rw [hthumb]; simp : ¬ (endsL (String.data ".thumb") (extract_filename md5 src).data
    && ((video_hash_map (collect_anchors cfg md5 domain hrefs).media_files).lookup
      ((extract_filename md5 src).replace ".thumb" "")).isSome) = true)]
  rw [if_pos horig]

/-- Witness for C2: anchor collects `/storage/a/bb/abcd.png`; the preview
`/storage/t/abcd.png` is repointed to `media/abcd.jpg` with no new asset. -/
theorem c2_preview_of_collected_original_repointed_witness :
    process_img ⟨true, 85⟩ (fun _ => "") "https://arhivach.vc"
        (video_hash_map (collect_anchors ⟨true, 85⟩ (fun _ => "") "https://arhivach.vc"
          ["/storage/a/bb/abcd.png"]).media_files)
        (collect_anchors ⟨true, 85⟩ (fun _ => "") "https://arhivach.vc"
          ["/storage/a/bb/abcd.png"])
        ⟨"/storage/t/abcd.png", ""⟩ =
      (collect_anchors ⟨true, 85⟩ (fun _ => "") "https://arhivach.vc"
          ["/storage/a/bb/abcd.png"],
        rewrite_img ⟨"/storage/t/abcd.png", ""⟩
          ("media/" ++ get_html_filename ⟨true, 85⟩
            (extract_filename (fun _ => "") "/storage/t/abcd.png"))) :=
  c2_preview_of_collected_original_repointed ⟨true, 85⟩ (fun _ => "")
    "https://arhivach.vc" ["/storage/a/bb/abcd.png"] ⟨"/storage/t/abcd.png", ""⟩
    "/storage/t/abcd.png" (by decide) (by decide) (by decide) (by decide)
    (by decide) (by decide)
